import Mathlib

/-!
Shallow embedding of the credential and token lifecycle subsystem of the
`midterm-auth-project` repository (`src/backend/server.js`,
`src/backend/middleware/authMiddleware.js`, and the NextAuth frontend glue).

The express handlers are embedded as pure functions from a request, the
current clock value and the database (the `users` table, a list of rows)
to a response and the new database.  The external cryptographic libraries
(`bcrypt`, `crypto.createHash('sha256')`, `jsonwebtoken`) are not code of
this repository; they are modelled by the contracts the specification
states for them (salted one-way password hash, deterministic injective
digest, signed tamper-evident token), as idealised injective functions.
-/

set_option maxRecDepth 8192

namespace MidtermAuth

/-- Modelled from the spec (§4.1 Password Hasher): the `bcrypt` library is
external to the repository.  A bcrypt hash is a salted one-way transform;
we model the digest as the pair of the salt and the hashed plaintext, which
makes `verify` exact where the real library is correct up to negligible
collision probability.  `server.js` calls `bcrypt.hash(password, 10)`. -/
structure BcryptHash where
  salt : Nat
  body : String
deriving DecidableEq, Repr

/-- Model of `bcrypt.hash(plain, 10)` with an explicit random salt. -/
def bcryptHash (plain : String) (salt : Nat) : BcryptHash :=
  ⟨salt, plain⟩

/-- Model of `bcrypt.compare(plain, hash)`: recompute with the stored salt
and compare. -/
def bcryptCompare (plain : String) (h : BcryptHash) : Bool :=
  plain == h.body

/-- Modelled from the spec (§4.2 Reset Token Codec): `crypto.createHash('sha256')`
is an external library.  The fast deterministic digest is modelled as an
injective tagging function on strings, so that distinct secrets have
distinct fingerprints (exact where SHA-256 is collision free). -/
def sha256Hex (s : String) : String :=
  "sha256:" ++ s

/-- Modelled from the spec (§4.3 Session Token Issuer/Verifier): the
`jsonwebtoken` library is external.  A signed token carries the claim set
`{ id, iat, exp }` (seconds) and a signature over those claims. -/
structure Jwt where
  sub : Nat
  iat : Nat
  exp : Nat
  sig : Nat
deriving DecidableEq, Repr

/-- Modelled from the spec: the HMAC is an idealised tag, injective in the
key and the claims — forgery-free and tamper-evident.  Claims and key are
packed as base-2^64 digits. -/
def jwtMac (secret sub iat exp : Nat) : Nat :=
  secret * 2 ^ 192 + sub * 2 ^ 128 + iat * 2 ^ 64 + exp

/-- `jwt.sign({ id }, JWT_SECRET, { expiresIn: '1h' })` at time `now`
(seconds): expiry is exactly 3600 seconds after issuance
(`server.js:124`). -/
def jwtSign (secret sub now : Nat) : Jwt :=
  ⟨sub, now, now + 3600, jwtMac secret sub now (now + 3600)⟩

/-- Outcome of session-token verification (spec §4.3
`verify(token) -> accountId | AuthError`). -/
inductive AuthResult where
  | ok (id : Nat)
  | invalid
  | expired
deriving DecidableEq, Repr

/-- `jwt.verify(token, JWT_SECRET)` at time `now`: signature is checked
first; an otherwise-valid token is expired exactly when `now ≥ exp`. -/
def jwtVerify (secret now : Nat) (t : Jwt) : AuthResult :=
  if t.sig ≠ jwtMac secret t.sub t.iat t.exp then .invalid
  else if t.exp ≤ now then .expired
  else .ok t.sub

/-- Verification of a transmitted token: a structurally malformed string
(one that does not decode to a claim set and signature at all) is `none`
and fails as `invalid`, as `jwt.verify` throws `JsonWebTokenError` on it. -/
def jwtVerifyWire (secret now : Nat) (w : Option Jwt) : AuthResult :=
  match w with
  | none => .invalid
  | some t => jwtVerify secret now t

/- Bit-level serialisation of a token, little-endian per field, used to
state bit-flip tamper detection: 64-bit fields `sub`, `iat`, `exp`,
followed by the 256-bit signature. -/

/-- The `w` low bits of `n`, little endian. -/
def natBits : Nat → Nat → List Bool
  | 0, _ => []
  | w + 1, n => (n % 2 == 1) :: natBits w (n / 2)

/-- Value of a little-endian bit list. -/
def bitsNat : List Bool → Nat
  | [] => 0
  | b :: bs => (cond b 1 0) + 2 * bitsNat bs

/-- Flip bit `i` of a bit string. -/
def flipBit (bs : List Bool) (i : Nat) : List Bool :=
  bs.set i (!(bs.getD i false))

/-- Serialised form of a token: `sub`, `iat`, `exp` in 64 bits each, then
the 256-bit signature. -/
def tokenBits (t : Jwt) : List Bool :=
  natBits 64 t.sub ++ (natBits 64 t.iat ++ (natBits 64 t.exp ++ natBits 256 t.sig))

/-- Deserialisation: succeeds exactly on bit strings of the right length. -/
def tokenOfBits (bs : List Bool) : Option Jwt :=
  if bs.length = 64 + (64 + (64 + 256)) then
    some ⟨bitsNat (bs.take 64),
          bitsNat ((bs.drop 64).take 64),
          bitsNat (((bs.drop 64).drop 64).take 64),
          bitsNat (((bs.drop 64).drop 64).drop 64)⟩
  else none

/-- One row of the `users` table.  `password` is the bcrypt hash column
(nullable for OAuth-created accounts), `resetToken` holds the SHA-256
fingerprint of the last issued reset secret, `resetTokenExpiry` its expiry
instant in milliseconds. -/
structure Account where
  id : Nat
  email : String
  password : Option BcryptHash
  name : Option String
  username : Option String
  onboarded : Bool
  resetToken : Option String
  resetTokenExpiry : Option Nat
deriving DecidableEq, Repr

/-- The user object as sent to the client after `delete user.password`
(`server.js:83`, `server.js:126`): every column except the password hash,
including the reset-token columns. -/
structure ClientAccount where
  id : Nat
  email : String
  name : Option String
  username : Option String
  onboarded : Bool
  resetToken : Option String
  resetTokenExpiry : Option Nat
deriving DecidableEq, Repr

def Account.toClient (a : Account) : ClientAccount :=
  ⟨a.id, a.email, a.name, a.username, a.onboarded, a.resetToken, a.resetTokenExpiry⟩

/-- An HTTP response of the backend: a bare `{ message }` body, a
`{ message, user }` body (register), a `{ user, token }` body (login and
OAuth link), or the middleware's `{ error }` body. -/
inductive Response where
  | msg (status : Nat) (message : String)
  | userMsg (status : Nat) (message : String) (user : ClientAccount)
  | userToken (status : Nat) (user : ClientAccount) (token : Jwt)
  | errField (status : Nat) (error : String)
deriving DecidableEq, Repr

/-- `UPDATE users SET ... WHERE id = ?`: rewrite every row whose `id`
matches. -/
def updateBy (db : List Account) (i : Nat) (f : Account → Account) : List Account :=
  db.map (fun u => if u.id = i then f u else u)

/-- `SELECT * FROM users WHERE email = ?`, first row
(the handlers use `users[0]`). -/
def findByEmail (db : List Account) (email : String) : Option Account :=
  db.find? (fun u => u.email == email)

/-- `POST /api/register` (`server.js:55`).  `salt` is the bcrypt salt,
`freshId` the auto-increment id assigned by the insert. -/
def register (db : List Account) (salt freshId : Nat) (email password : String) :
    Response × List Account :=
  if email = "" ∨ password = "" then
    (.msg 400 "Email and password are required", db)
  else
    match findByEmail db email with
    | some _ => (.msg 409 "User with this email already exists", db)
    | none =>
      let newAcc : Account :=
        ⟨freshId, email, some (bcryptHash password salt), none, none, false, none, none⟩
      let db1 := db ++ [newAcc]
      match findByEmail db1 email with
      | some u => (.userMsg 201 "User registered successfully" u.toClient, db1)
      | none => (.msg 500 "An error occurred during registration", db1)

/-- `POST /api/login` (`server.js:99`).  Does not write the store.  A `none`
password column makes `bcrypt.compare` reject, caught as 500. -/
def login (db : List Account) (secret now : Nat) (email password : String) : Response :=
  if email = "" ∨ password = "" then
    .msg 400 "Email and password are required"
  else
    match findByEmail db email with
    | none => .msg 401 "Invalid email or password"
    | some user =>
      match user.password with
      | none => .msg 500 "An error occurred during login"
      | some h =>
        if bcryptCompare password h then
          .userToken 200 user.toClient (jwtSign secret user.id now)
        else
          .msg 401 "Invalid email or password"

/-- `PUT /api/profile/password` (`server.js:148`), after the middleware has
resolved the bearer token to `userId`. -/
def changePassword (db : List Account) (salt userId : Nat)
    (oldPassword newPassword : String) : Response × List Account :=
  if oldPassword = "" ∨ newPassword = "" then
    (.msg 400 "Old and new passwords are required", db)
  else
    match db.find? (fun u => u.id == userId) with
    | none => (.msg 404 "User not found", db)
    | some user =>
      match user.password with
      | none => (.msg 500 "An error occurred while changing the password", db)
      | some h =>
        if bcryptCompare oldPassword h then
          (.msg 200 "Password updated successfully",
           updateBy db user.id (fun u => { u with password := some (bcryptHash newPassword salt) }))
        else
          (.msg 401 "Incorrect old password", db)

/-- The generic anti-enumeration message of `POST /api/forgot-password`. -/
def forgotMsg : String :=
  "If a user with that email exists, a password reset link has been sent."

/-- `POST /api/forgot-password` (`server.js:188`).  `secretTok` is the fresh
random secret from `crypto.randomBytes(32).toString('hex')`; only its
SHA-256 fingerprint is written, with expiry `now + 3600000` ms. -/
def forgotPassword (db : List Account) (now : Nat) (secretTok email : String) :
    Response × List Account :=
  if email = "" then
    (.msg 400 "Email is required", db)
  else
    match findByEmail db email with
    | none => (.msg 200 forgotMsg, db)
    | some user =>
      (.msg 200 forgotMsg,
       updateBy db user.id (fun u =>
         { u with resetToken := some (sha256Hex secretTok),
                  resetTokenExpiry := some (now + 3600000) }))

/-- The row filter of `SELECT * FROM users WHERE resetToken = ? AND
resetTokenExpiry > NOW()` (`server.js:245`): a SQL `NULL` in either column
fails the comparison. -/
def resetPred (now : Nat) (fp : String) (u : Account) : Bool :=
  u.resetToken == some fp &&
    (match u.resetTokenExpiry with
     | some e => decide (now < e)
     | none => false)

/-- A write against the `users` table.  `setPasswordClearReset` is the
single `UPDATE users SET password = ?, resetToken = NULL,
resetTokenExpiry = NULL WHERE id = ?` of `server.js:258`. -/
inductive DbOp where
  | setPasswordClearReset (uid : Nat) (h : BcryptHash)
deriving DecidableEq, Repr

def applyOp (db : List Account) : DbOp → List Account
  | .setPasswordClearReset uid h =>
    updateBy db uid (fun u =>
      { u with password := some h, resetToken := none, resetTokenExpiry := none })

/-- The store writes `POST /api/reset-password` performs: one combined
update on success, none otherwise. -/
def resetPasswordOps (db : List Account) (now salt : Nat)
    (token newPassword : String) : List DbOp :=
  if token = "" ∨ newPassword = "" then []
  else
    match db.find? (resetPred now (sha256Hex token)) with
    | none => []
    | some user => [.setPasswordClearReset user.id (bcryptHash newPassword salt)]

/-- `POST /api/reset-password` (`server.js:234`). -/
def resetPassword (db : List Account) (now salt : Nat)
    (token newPassword : String) : Response × List Account :=
  if token = "" ∨ newPassword = "" then
    (.msg 400 "Token and new password are required", db)
  else
    match db.find? (resetPred now (sha256Hex token)) with
    | none => (.msg 400 "Invalid or expired password reset token.", db)
    | some user =>
      (.msg 200 "Password has been reset successfully.",
       updateBy db user.id (fun u =>
         { u with password := some (bcryptHash newPassword salt),
                  resetToken := none, resetTokenExpiry := none }))

/-- `PUT /api/onboarding` (`server.js:277`), after the middleware. -/
def onboarding (db : List Account) (userId : Nat) (name username : String) :
    Response × List Account :=
  if name = "" ∨ username = "" then
    (.msg 400 "Name and username are required", db)
  else
    match db.find? (fun u => u.username == some username && u.id != userId) with
    | some _ => (.msg 409 "Username is already taken. Please choose another.", db)
    | none =>
      (.msg 200 "Onboarding completed successfully!",
       updateBy db userId (fun u =>
         { u with name := some name, username := some username, onboarded := true }))

/-- `authMiddleware` (`authMiddleware.js:3`): a missing header or a token
that fails verification yields the 401 `{ error }` body; otherwise the
decoded account id is handed to the handler. -/
def authMiddleware (secret now : Nat) (header : Option (Option Jwt)) :
    Except Response Nat :=
  match header with
  | none => .error (.errField 401 "Authentication failed.")
  | some w =>
    match jwtVerifyWire secret now w with
    | .ok i => .ok i
    | _ => .error (.errField 401 "Authentication failed.")

/-- Modelled from the spec (§4.5 OAuth Account Link): the backend route
`POST /api/auth/google` called by the NextAuth `jwt` callback
(`src/unnamed/part_002`) is not among the files under `src/`.  Per the
spec: on a miss create an account with no local password and
`onboarded = false`, on a hit reuse the existing account unchanged, and
issue a session token either way. -/
def googleAuth (db : List Account) (secret now freshId : Nat)
    (email displayName : String) : Response × List Account :=
  match findByEmail db email with
  | none =>
    let newAcc : Account :=
      ⟨freshId, email, none, some displayName, none, false, none, none⟩
    (.userToken 200 newAcc.toClient (jwtSign secret freshId now), db ++ [newAcc])
  | some user =>
    (.userToken 200 user.toClient (jwtSign secret user.id now), db)

/-- The both-null-or-both-set invariant on the reset-token column pair
(spec §3). -/
def resetPairInv (a : Account) : Prop :=
  a.resetToken = none ↔ a.resetTokenExpiry = none

instance (a : Account) : Decidable (resetPairInv a) := by
  unfold resetPairInv; infer_instance

/-! ### Helper lemmas -/

/-- The fingerprint function is injective: distinct secrets have distinct
fingerprints. -/
theorem sha256Hex_inj {a b : String} (h : sha256Hex a = sha256Hex b) : a = b := by
  obtain ⟨da⟩ := a
  obtain ⟨db⟩ := b
  have h2 : ('s' :: 'h' :: 'a' :: '2' :: '5' :: '6' :: ':' :: da)
      = ('s' :: 'h' :: 'a' :: '2' :: '5' :: '6' :: ':' :: db) :=
    congrArg String.data h
  simp only [List.cons.injEq, true_and] at h2
  exact congrArg String.mk h2

/-- A fingerprint is never equal to the secret it was derived from. -/
theorem sha256Hex_ne (s : String) : sha256Hex s ≠ s := by
  obtain ⟨d⟩ := s
  intro h
  have h2 : ('s' :: 'h' :: 'a' :: '2' :: '5' :: '6' :: ':' :: d) = d :=
    congrArg String.data h
  have h3 := congrArg List.length h2
  simp at h3
  omega

/-- `find?` commutes with a map that does not change the predicate's
verdict on any element. -/
theorem find?_map_pred_eq {α : Type} (p : α → Bool) (h : α → α)
    (hp : ∀ u, p (h u) = p u) :
    ∀ l : List α, List.find? p (l.map h) = (List.find? p l).map h := by
  intro l
  induction l with
  | nil => rfl
  | cons a t ih =>
    by_cases hpa : p a = true
    · have hpa2 : p (h a) = true := by rw [hp]; exact hpa
      rw [List.map_cons, List.find?_cons_of_pos _ hpa2, List.find?_cons_of_pos _ hpa,
        Option.map_some']
    · have hpa2 : ¬ p (h a) = true := by rw [hp]; exact hpa
      rw [List.map_cons, List.find?_cons_of_neg _ hpa2, List.find?_cons_of_neg _ hpa, ih]

/-- Membership in an `updateBy` image. -/
theorem mem_updateBy {db : List Account} {i : Nat} {f : Account → Account}
    {a : Account} (h : a ∈ updateBy db i f) :
    ∃ u ∈ db, a = if u.id = i then f u else u := by
  unfold updateBy at h
  obtain ⟨u, hu, rfl⟩ := List.mem_map.mp h
  exact ⟨u, hu, rfl⟩

theorem updateBy_mem {db : List Account} {i : Nat} {f : Account → Account}
    {u : Account} (h : u ∈ db) :
    (if u.id = i then f u else u) ∈ updateBy db i f :=
  List.mem_map.mpr ⟨u, h, rfl⟩

/-- The idealised MAC is injective in the claims for any key, given 64-bit
claim fields. -/
theorem jwtMac_inj {secret a b c a' b' c' : Nat}
    (ha : a < 2 ^ 64) (hb : b < 2 ^ 64) (hc : c < 2 ^ 64)
    (ha' : a' < 2 ^ 64) (hb' : b' < 2 ^ 64) (hc' : c' < 2 ^ 64)
    (h : jwtMac secret a b c = jwtMac secret a' b' c') :
    a = a' ∧ b = b' ∧ c = c' := by
  unfold jwtMac at h
  omega

/-- Bound on the idealised MAC for a 64-bit key and 64-bit claims. -/
theorem jwtMac_lt {secret a b c : Nat}
    (hs : secret < 2 ^ 64) (ha : a < 2 ^ 64) (hb : b < 2 ^ 64) (hc : c < 2 ^ 64) :
    jwtMac secret a b c < 2 ^ 256 := by
  unfold jwtMac
  omega

theorem length_natBits (w n : Nat) : (natBits w n).length = w := by
  induction w generalizing n with
  | zero => rfl
  | succ w ih => simp [natBits, ih]

theorem bitsNat_natBits {w n : Nat} (h : n < 2 ^ w) : bitsNat (natBits w n) = n := by
  induction w generalizing n with
  | zero =>
    interval_cases n
    rfl
  | succ w ih =>
    have hdiv : n / 2 < 2 ^ w := by
      have : n < 2 ^ w * 2 := by
        have := h
        rw [pow_succ] at this
        omega
      omega
    have hrec := ih hdiv
    by_cases hpar : n % 2 = 1
    · simp [natBits, bitsNat, hpar, hrec]
      omega
    · have hpar0 : n % 2 = 0 := by omega
      simp [natBits, bitsNat, hpar0, hrec]
      omega

theorem bitsNat_inj : ∀ {xs ys : List Bool}, xs.length = ys.length →
    bitsNat xs = bitsNat ys → xs = ys := by
  intro xs
  induction xs with
  | nil =>
    intro ys hlen _
    cases ys with
    | nil => rfl
    | cons c cs => simp at hlen
  | cons b bs ih =>
    intro ys hlen hval
    cases ys with
    | nil => simp at hlen
    | cons c cs =>
      simp only [List.length_cons, Nat.succ.injEq] at hlen
      unfold bitsNat at hval
      have hbc : b = c ∧ bitsNat bs = bitsNat cs := by
        cases b <;> cases c <;> simp at hval ⊢ <;> omega
      rw [hbc.1, ih hlen hbc.2]

theorem bitsNat_lt : ∀ l : List Bool, bitsNat l < 2 ^ l.length := by
  intro l
  induction l with
  | nil => simp [bitsNat]
  | cons b bs ih =>
    have h2 : 2 ^ (b :: bs).length = 2 * 2 ^ bs.length := by
      simp [List.length_cons, pow_succ]
      ring
    rw [h2]
    unfold bitsNat
    cases b <;> simp <;> omega

theorem flipBit_length (l : List Bool) (i : Nat) : (flipBit l i).length = l.length :=
  List.length_set l i _

theorem flipBit_append_left {l₁ : List Bool} (l₂ : List Bool) {i : Nat}
    (h : i < l₁.length) : flipBit (l₁ ++ l₂) i = flipBit l₁ i ++ l₂ := by
  unfold flipBit
  rw [List.getD_append _ _ _ _ h, List.set_append_left _ _ h]

theorem flipBit_append_right {l₁ : List Bool} (l₂ : List Bool) {i : Nat}
    (h : l₁.length ≤ i) :
    flipBit (l₁ ++ l₂) i = l₁ ++ flipBit l₂ (i - l₁.length) := by
  unfold flipBit
  rw [List.getD_append_right _ _ _ _ h, List.set_append_right _ _ h]

theorem flipBit_ne {l : List Bool} {i : Nat} (h : i < l.length) :
    flipBit l i ≠ l := by
  intro heq
  have hq := congrArg (fun xs => xs[i]?) heq
  simp only at hq
  have h1 : (flipBit l i)[i]? = some (!(l.getD i false)) := by
    unfold flipBit
    exact List.getElem?_set_self h
  obtain ⟨b, hb⟩ : ∃ b, l[i]? = some b := ⟨_, List.getElem?_eq_getElem h⟩
  have hgd : l.getD i false = b := by
    rw [List.getD_eq_getElem?_getD l i false, hb]
    rfl
  rw [h1, hb, hgd] at hq
  cases b <;> simp at hq

theorem bitsNat_flipBit_ne {l : List Bool} {i : Nat} (h : i < l.length) :
    bitsNat (flipBit l i) ≠ bitsNat l := by
  intro heq
  exact flipBit_ne h (bitsNat_inj (flipBit_length l i) heq)

/-- Deserialisation of any well-lengthed quadruple of segments. -/
theorem tokenOfBits_quad {a b c d : List Bool}
    (ha : a.length = 64) (hb : b.length = 64) (hc : c.length = 64)
    (hd : d.length = 256) :
    tokenOfBits (a ++ (b ++ (c ++ d)))
      = some ⟨bitsNat a, bitsNat b, bitsNat c, bitsNat d⟩ := by
  have hlen : (a ++ (b ++ (c ++ d))).length = 64 + (64 + (64 + 256)) := by
    simp [List.length_append, ha, hb, hc, hd]
  have htake : (a ++ (b ++ (c ++ d))).take 64 = a := by
    rw [← ha]; exact List.take_left a _
  have hdrop : (a ++ (b ++ (c ++ d))).drop 64 = b ++ (c ++ d) := by
    rw [← ha]; exact List.drop_left a _
  have htake2 : (b ++ (c ++ d)).take 64 = b := by
    rw [← hb]; exact List.take_left b _
  have hdrop2 : (b ++ (c ++ d)).drop 64 = c ++ d := by
    rw [← hb]; exact List.drop_left b _
  have htake3 : (c ++ d).take 64 = c := by
    rw [← hc]; exact List.take_left c _
  have hdrop3 : (c ++ d).drop 64 = d := by
    rw [← hc]; exact List.drop_left c _
  unfold tokenOfBits
  rw [if_pos hlen, htake, hdrop, htake2, hdrop2, htake3, hdrop3]

/-- A token whose signature does not match its claims fails as `invalid`. -/
theorem jwtVerify_invalid_of_sig_ne {secret now : Nat} {t : Jwt}
    (h : t.sig ≠ jwtMac secret t.sub t.iat t.exp) :
    jwtVerify secret now t = .invalid := by
  unfold jwtVerify
  rw [if_pos h]

/-- Any single bit flip in the serialised token makes verification fail
with `invalid`, at any clock value. -/
theorem jwtVerify_flip_invalid (secret sub now tnow i : Nat)
    (hs : secret < 2 ^ 64) (hsub : sub < 2 ^ 64) (hnow : now + 3600 < 2 ^ 64)
    (hi : i < 448) :
    jwtVerifyWire secret tnow
      (tokenOfBits (flipBit (tokenBits (jwtSign secret sub now)) i)) = .invalid := by
  have hnow' : now < 2 ^ 64 := by omega
  have hsig : jwtMac secret sub now (now + 3600) < 2 ^ 256 :=
    jwtMac_lt hs hsub hnow' hnow
  have hA : (natBits 64 sub).length = 64 := length_natBits 64 sub
  have hB : (natBits 64 now).length = 64 := length_natBits 64 now
  have hC : (natBits 64 (now + 3600)).length = 64 := length_natBits 64 (now + 3600)
  have hD : (natBits 256 (jwtMac secret sub now (now + 3600))).length = 256 :=
    length_natBits 256 _
  have hrA : bitsNat (natBits 64 sub) = sub := bitsNat_natBits hsub
  have hrB : bitsNat (natBits 64 now) = now := bitsNat_natBits hnow'
  have hrC : bitsNat (natBits 64 (now + 3600)) = now + 3600 := bitsNat_natBits hnow
  have hrD : bitsNat (natBits 256 (jwtMac secret sub now (now + 3600)))
      = jwtMac secret sub now (now + 3600) := bitsNat_natBits hsig
  have htb : tokenBits (jwtSign secret sub now)
      = natBits 64 sub ++ (natBits 64 now
        ++ (natBits 64 (now + 3600) ++ natBits 256 (jwtMac secret sub now (now + 3600)))) := rfl
  rw [htb]
  by_cases h1 : i < 64
  · rw [flipBit_append_left _ (by rw [hA]; omega),
      tokenOfBits_quad (by rw [flipBit_length, hA]) hB hC hD]
    have hne := @bitsNat_flipBit_ne (natBits 64 sub) i (by rw [hA]; omega)
    rw [hrA] at hne
    have hlt : bitsNat (flipBit (natBits 64 sub) i) < 2 ^ 64 := by
      have h := bitsNat_lt (flipBit (natBits 64 sub) i)
      rwa [flipBit_length, hA] at h
    show jwtVerify secret tnow _ = .invalid
    refine jwtVerify_invalid_of_sig_ne ?_
    show bitsNat (natBits 256 (jwtMac secret sub now (now + 3600)))
        ≠ jwtMac secret (bitsNat (flipBit (natBits 64 sub) i))
            (bitsNat (natBits 64 now)) (bitsNat (natBits 64 (now + 3600)))
    rw [hrD, hrB, hrC]
    intro hcontra
    obtain ⟨heq, -, -⟩ := jwtMac_inj hsub hnow' hnow hlt hnow' hnow hcontra
    exact hne heq.symm
  · rw [flipBit_append_right _ (by rw [hA]; omega), hA]
    by_cases h2 : i - 64 < 64
    · rw [flipBit_append_left _ (by rw [hB]; omega),
        tokenOfBits_quad hA (by rw [flipBit_length, hB]) hC hD]
      have hne := @bitsNat_flipBit_ne (natBits 64 now) (i - 64) (by rw [hB]; omega)
      rw [hrB] at hne
      have hlt : bitsNat (flipBit (natBits 64 now) (i - 64)) < 2 ^ 64 := by
        have h := bitsNat_lt (flipBit (natBits 64 now) (i - 64))
        rwa [flipBit_length, hB] at h
      show jwtVerify secret tnow _ = .invalid
      refine jwtVerify_invalid_of_sig_ne ?_
      show bitsNat (natBits 256 (jwtMac secret sub now (now + 3600)))
          ≠ jwtMac secret (bitsNat (natBits 64 sub))
              (bitsNat (flipBit (natBits 64 now) (i - 64))) (bitsNat (natBits 64 (now + 3600)))
      rw [hrD, hrA, hrC]
      intro hcontra
      obtain ⟨-, heq, -⟩ := jwtMac_inj hsub hnow' hnow hsub hlt hnow hcontra
      exact hne heq.symm
    · rw [flipBit_append_right _ (by rw [hB]; omega), hB]
      by_cases h3 : i - 64 - 64 < 64
      · rw [flipBit_append_left _ (by rw [hC]; omega),
          tokenOfBits_quad hA hB (by rw [flipBit_length, hC]) hD]
        have hne := @bitsNat_flipBit_ne (natBits 64 (now + 3600)) (i - 64 - 64)
          (by rw [hC]; omega)
        rw [hrC] at hne
        have hlt : bitsNat (flipBit (natBits 64 (now + 3600)) (i - 64 - 64)) < 2 ^ 64 := by
          have h := bitsNat_lt (flipBit (natBits 64 (now + 3600)) (i - 64 - 64))
          rwa [flipBit_length, hC] at h
        show jwtVerify secret tnow _ = .invalid
        refine jwtVerify_invalid_of_sig_ne ?_
        show bitsNat (natBits 256 (jwtMac secret sub now (now + 3600)))
            ≠ jwtMac secret (bitsNat (natBits 64 sub))
                (bitsNat (natBits 64 now)) (bitsNat (flipBit (natBits 64 (now + 3600)) (i - 64 - 64)))
        rw [hrD, hrA, hrB]
        intro hcontra
        obtain ⟨-, -, heq⟩ := jwtMac_inj hsub hnow' hnow hsub hnow' hlt hcontra
        exact hne heq.symm
      · rw [flipBit_append_right _ (by rw [hC]; omega), hC,
          tokenOfBits_quad hA hB hC (by rw [flipBit_length, hD])]
        have hne := @bitsNat_flipBit_ne (natBits 256 (jwtMac secret sub now (now + 3600)))
          (i - 64 - 64 - 64) (by rw [hD]; omega)
        rw [hrD] at hne
        show jwtVerify secret tnow _ = .invalid
        refine jwtVerify_invalid_of_sig_ne ?_
        show bitsNat (flipBit (natBits 256 (jwtMac secret sub now (now + 3600))) (i - 64 - 64 - 64))
            ≠ jwtMac secret (bitsNat (natBits 64 sub))
                (bitsNat (natBits 64 now)) (bitsNat (natBits 64 (now + 3600)))
        rw [hrA, hrB, hrC]
        exact hne

/-! ### Claim theorems -/

/-- C2: a session token issued for account `sub` verifies to `sub` while
unexpired and unmodified; an otherwise-valid token presented at or after
the end of the 1-hour (3600 s) window fails with `expired`; a token with
any single bit of its serialised payload or signature flipped fails with
`invalid`, as does a structurally malformed token. -/
theorem session_token_lifecycle (secret sub now t1 t2 t3 tm i : Nat)
    (hs : secret < 2 ^ 64) (hsub : sub < 2 ^ 64) (hnow : now + 3600 < 2 ^ 64)
    (hfresh : t1 < now + 3600) (hlate : now + 3600 ≤ t2) (hi : i < 448) :
    jwtVerifyWire secret t1 (some (jwtSign secret sub now)) = .ok sub
    ∧ jwtVerifyWire secret t2 (some (jwtSign secret sub now)) = .expired
    ∧ jwtVerifyWire secret t3
        (tokenOfBits (flipBit (tokenBits (jwtSign secret sub now)) i)) = .invalid
    ∧ jwtVerifyWire secret tm none = .invalid := by
  refine ⟨?_, ?_, jwtVerify_flip_invalid secret sub now t3 i hs hsub hnow hi, rfl⟩
  · show jwtVerify secret t1 (jwtSign secret sub now) = .ok sub
    unfold jwtVerify jwtSign
    rw [if_neg (by simp), if_neg (by simp; omega)]
  · show jwtVerify secret t2 (jwtSign secret sub now) = .expired
    unfold jwtVerify jwtSign
    rw [if_neg (by simp), if_pos (by simp; omega)]

/-- Witness for C2 at concrete inputs. -/
theorem session_token_lifecycle_witness :
    (3 < 2 ^ 64 ∧ 2 < 2 ^ 64 ∧ 5 + 3600 < 2 ^ 64 ∧ 6 < 5 + 3600 ∧ 5 + 3600 ≤ 3605 ∧ 0 < 448)
    ∧ (jwtVerifyWire 3 6 (some (jwtSign 3 2 5)) = .ok 2
      ∧ jwtVerifyWire 3 3605 (some (jwtSign 3 2 5)) = .expired
      ∧ jwtVerifyWire 3 0 (tokenOfBits (flipBit (tokenBits (jwtSign 3 2 5)) 0)) = .invalid
      ∧ jwtVerifyWire 3 0 none = .invalid) :=
  ⟨⟨by decide, by decide, by decide, by decide, by decide, by decide⟩,
   session_token_lifecycle 3 2 5 6 3605 0 0 0
     (by decide) (by decide) (by decide) (by decide) (by decide) (by decide)⟩

/-- C3: a login attempt with an unknown email and a login attempt with a
known email but a wrong password produce byte-identical error responses —
the same 401 status and the same message — revealing nothing about account
existence. -/
theorem login_enumeration_resistant (db : List Account) (secret now : Nat)
    (e1 p1 e2 p2 : String) (A : Account) (hA : BcryptHash)
    (he1 : e1 ≠ "") (hp1 : p1 ≠ "") (he2 : e2 ≠ "") (hp2 : p2 ≠ "")
    (hmiss : findByEmail db e1 = none)
    (hhit : findByEmail db e2 = some A)
    (hpw : A.password = some hA)
    (hbad : bcryptCompare p2 hA = false) :
    login db secret now e1 p1 = login db secret now e2 p2
    ∧ login db secret now e1 p1 = .msg 401 "Invalid email or password" := by
  have h1 : login db secret now e1 p1 = .msg 401 "Invalid email or password" := by
    unfold login
    rw [if_neg (by push_neg; exact ⟨he1, hp1⟩), hmiss]
  have h2 : login db secret now e2 p2 = .msg 401 "Invalid email or password" := by
    unfold login
    rw [if_neg (by push_neg; exact ⟨he2, hp2⟩)]
    simp only [hhit, hpw, hbad]
    rfl
  exact ⟨h1.trans h2.symm, h1⟩

/-- Witness for C3 at a concrete store. -/
theorem login_enumeration_resistant_witness :
    (findByEmail [⟨1, "a@x.com", some (bcryptHash "pw1" 10), none, none, false, none, none⟩]
        "b@x.com" = none
      ∧ findByEmail [⟨1, "a@x.com", some (bcryptHash "pw1" 10), none, none, false, none, none⟩]
        "a@x.com" = some ⟨1, "a@x.com", some (bcryptHash "pw1" 10), none, none, false, none, none⟩
      ∧ bcryptCompare "wrong" (bcryptHash "pw1" 10) = false)
    ∧ (login [⟨1, "a@x.com", some (bcryptHash "pw1" 10), none, none, false, none, none⟩]
          7 0 "b@x.com" "pw1"
        = login [⟨1, "a@x.com", some (bcryptHash "pw1" 10), none, none, false, none, none⟩]
          7 0 "a@x.com" "wrong"
      ∧ login [⟨1, "a@x.com", some (bcryptHash "pw1" 10), none, none, false, none, none⟩]
          7 0 "b@x.com" "pw1" = .msg 401 "Invalid email or password") :=
  ⟨⟨by decide, by decide, by decide⟩,
   login_enumeration_resistant
     [⟨1, "a@x.com", some (bcryptHash "pw1" 10), none, none, false, none, none⟩]
     7 0 "b@x.com" "pw1" "a@x.com" "wrong"
     ⟨1, "a@x.com", some (bcryptHash "pw1" 10), none, none, false, none, none⟩
     (bcryptHash "pw1" 10)
     (by decide) (by decide) (by decide) (by decide)
     (by decide) (by decide) (by decide) (by decide)⟩

/-- C4: a freshly computed salted hash of a password verifies against that
password, and against no other password (exactly so in the idealised
collision-free model of bcrypt). -/
theorem hash_verify_roundtrip (p p1 p2 : String) (salt : Nat) (hne : p1 ≠ p2) :
    bcryptCompare p (bcryptHash p salt) = true
    ∧ bcryptCompare p1 (bcryptHash p2 salt) = false := by
  constructor
  · simp [bcryptCompare, bcryptHash]
  · simp [bcryptCompare, bcryptHash]
    exact hne

/-- Witness for C4 at concrete passwords. -/
theorem hash_verify_roundtrip_witness :
    ("pw1" : String) ≠ "pw2"
    ∧ (bcryptCompare "pw0" (bcryptHash "pw0" 10) = true
      ∧ bcryptCompare "pw1" (bcryptHash "pw2" 10) = false) :=
  ⟨by decide, hash_verify_roundtrip "pw0" "pw1" "pw2" 10 (by decide)⟩

/-- Characterisation of the reset-redemption row filter. -/
theorem resetPred_iff (now : Nat) (fp : String) (u : Account) :
    resetPred now fp u = true ↔
      u.resetToken = some fp ∧ ∃ e, u.resetTokenExpiry = some e ∧ now < e := by
  unfold resetPred
  rcases hu : u.resetTokenExpiry with _ | e
  · simp
  · simp [beq_iff_eq]

/-- On a hit, `forgot-password` answers the generic message and stamps the
fingerprint and expiry on the found account's row. -/
theorem forgotPassword_hit {db : List Account} {now : Nat} {s email : String}
    {A : Account} (he : email ≠ "") (hfind : findByEmail db email = some A) :
    forgotPassword db now s email
      = (.msg 200 forgotMsg,
         updateBy db A.id (fun u =>
           { u with resetToken := some (sha256Hex s),
                    resetTokenExpiry := some (now + 3600000) })) := by
  unfold forgotPassword
  rw [if_neg he]
  simp only [hfind]

/-- C1: after a reset token is issued for an account, redeeming it with the
matching secret before the expiry instant succeeds exactly once: the first
redemption answers 200, a second redemption of the same secret answers 400
`Invalid or expired password reset token.`, and a redemption at or past the
expiry instant answers the same 400. -/
theorem reset_token_redemption (db : List Account)
    (now t1 t2 t3 salt1 salt2 salt3 : Nat)
    (email s p1 p2 p3 : String) (A : Account)
    (he : email ≠ "") (hs : s ≠ "") (hp1 : p1 ≠ "") (hp2 : p2 ≠ "") (hp3 : p3 ≠ "")
    (hfind : findByEmail db email = some A)
    (hfresh : ∀ u ∈ db, u.resetToken ≠ some (sha256Hex s))
    (ht1 : t1 < now + 3600000) (ht3 : now + 3600000 ≤ t3) :
    (resetPassword (forgotPassword db now s email).2 t1 salt1 s p1).1
        = .msg 200 "Password has been reset successfully."
    ∧ (resetPassword (resetPassword (forgotPassword db now s email).2 t1 salt1 s p1).2
        t2 salt2 s p2).1 = .msg 400 "Invalid or expired password reset token."
    ∧ (resetPassword (forgotPassword db now s email).2 t3 salt3 s p3).1
        = .msg 400 "Invalid or expired password reset token." := by
  have hdb1 : (forgotPassword db now s email).2
      = updateBy db A.id (fun u =>
          { u with resetToken := some (sha256Hex s),
                   resetTokenExpiry := some (now + 3600000) }) := by
    rw [forgotPassword_hit he hfind]
  have hmemA : A ∈ db := List.mem_of_find?_eq_some hfind
  -- the stamped row is in the post-forgot store and satisfies the filter at t1
  have hfAmem : ({ A with
      resetToken := some (sha256Hex s),
      resetTokenExpiry := some (now + 3600000) } : Account)
      ∈ (forgotPassword db now s email).2 := by
    rw [hdb1]
    have h := @updateBy_mem db A.id
      (fun u => { u with
        resetToken := some (sha256Hex s),
        resetTokenExpiry := some (now + 3600000) }) A hmemA
    rwa [if_pos rfl] at h
  have hfApred : resetPred t1 (sha256Hex s)
      { A with
        resetToken := some (sha256Hex s),
        resetTokenExpiry := some (now + 3600000) } = true := by
    rw [resetPred_iff]
    exact ⟨rfl, now + 3600000, rfl, ht1⟩
  have hfind1 : ∃ a', (forgotPassword db now s email).2.find?
      (resetPred t1 (sha256Hex s)) = some a' := by
    cases hfo : (forgotPassword db now s email).2.find? (resetPred t1 (sha256Hex s)) with
    | some a' => exact ⟨a', rfl⟩
    | none =>
      exact absurd hfApred (List.find?_eq_none.mp hfo _ hfAmem)
  obtain ⟨a', hfo⟩ := hfind1
  have hpa' : resetPred t1 (sha256Hex s) a' = true := List.find?_some hfo
  have hma' : a' ∈ (forgotPassword db now s email).2 := List.mem_of_find?_eq_some hfo
  rw [hdb1] at hma'
  obtain ⟨u, hu, hau⟩ := mem_updateBy hma'
  have huid : u.id = A.id := by
    by_contra hne
    rw [if_neg hne] at hau
    subst hau
    obtain ⟨hrt, -⟩ := (resetPred_iff t1 (sha256Hex s) a').mp hpa'
    exact hfresh a' hu hrt
  rw [if_pos huid] at hau
  have ha'id : a'.id = A.id := by rw [hau]; exact huid
  -- first redemption succeeds
  have hres1 : resetPassword (forgotPassword db now s email).2 t1 salt1 s p1
      = (.msg 200 "Password has been reset successfully.",
         updateBy (forgotPassword db now s email).2 a'.id (fun u =>
           { u with password := some (bcryptHash p1 salt1),
                    resetToken := none, resetTokenExpiry := none })) := by
    unfold resetPassword
    rw [if_neg (by push_neg; exact ⟨hs, hp1⟩)]
    simp only [hfo]
  have hstate : (resetPassword (forgotPassword db now s email).2 t1 salt1 s p1).2
      = updateBy (forgotPassword db now s email).2 a'.id (fun u =>
          { u with
            password := some (bcryptHash p1 salt1),
            resetToken := none, resetTokenExpiry := none }) := by
    rw [hres1]
  refine ⟨by rw [hres1], ?_, ?_⟩
  -- a second redemption of the same secret fails
  · have hnone2 : (updateBy (forgotPassword db now s email).2 a'.id (fun u =>
          { u with
            password := some (bcryptHash p1 salt1),
            resetToken := none, resetTokenExpiry := none })).find?
        (resetPred t2 (sha256Hex s)) = none := by
      apply List.find?_eq_none.mpr
      intro x hx
      obtain ⟨v, hv, hxv⟩ := mem_updateBy hx
      by_cases hvid : v.id = a'.id
      · rw [if_pos hvid] at hxv
        subst hxv
        intro hpred
        obtain ⟨hrt, -⟩ := (resetPred_iff t2 (sha256Hex s) _).mp hpred
        simp at hrt
      · rw [if_neg hvid] at hxv
        subst hxv
        rw [hdb1] at hv
        obtain ⟨w, hw, hvw⟩ := mem_updateBy hv
        by_cases hwid : w.id = A.id
        · rw [if_pos hwid] at hvw
          exfalso
          apply hvid
          rw [hvw, ha'id]
          exact hwid
        · rw [if_neg hwid] at hvw
          subst hvw
          intro hpred
          obtain ⟨hrt, -⟩ := (resetPred_iff t2 (sha256Hex s) _).mp hpred
          exact hfresh _ hw hrt
    rw [hstate]
    unfold resetPassword
    rw [if_neg (by push_neg; exact ⟨hs, hp2⟩)]
    simp only [hnone2]
  -- redemption at or past the expiry instant fails
  · have hnone3 : (forgotPassword db now s email).2.find?
        (resetPred t3 (sha256Hex s)) = none := by
      apply List.find?_eq_none.mpr
      intro x hx
      rw [hdb1] at hx
      obtain ⟨w, hw, hxw⟩ := mem_updateBy hx
      by_cases hwid : w.id = A.id
      · rw [if_pos hwid] at hxw
        subst hxw
        intro hpred
        obtain ⟨-, e, he', hlt⟩ := (resetPred_iff t3 (sha256Hex s) _).mp hpred
        simp at he'
        omega
      · rw [if_neg hwid] at hxw
        subst hxw
        intro hpred
        obtain ⟨hrt, -⟩ := (resetPred_iff t3 (sha256Hex s) _).mp hpred
        exact hfresh _ hw hrt
    unfold resetPassword
    rw [if_neg (by push_neg; exact ⟨hs, hp3⟩)]
    simp only [hnone3]

/-- An update that does not touch the email column commutes with the
lookup by email. -/
theorem findByEmail_updateBy (db : List Account) (i : Nat) (f : Account → Account)
    (hf : ∀ u, (f u).email = u.email) (email : String) :
    findByEmail (updateBy db i f) email
      = (findByEmail db email).map (fun u => if u.id = i then f u else u) := by
  unfold findByEmail updateBy
  apply find?_map_pred_eq
  intro u
  by_cases h : u.id = i
  · simp [h, hf]
  · simp [h]

/-- C10: a second forgot-password request for the same email overwrites the
stored fingerprint and expiry, and the first (overwritten) secret then
fails to redeem with `Invalid or expired password reset token.`. -/
theorem second_forgot_invalidates_first (db : List Account)
    (now1 now2 t salt : Nat) (email s1 s2 p : String) (A : Account)
    (he : email ≠ "") (hs1 : s1 ≠ "") (hp : p ≠ "") (hneq : s1 ≠ s2)
    (hfind : findByEmail db email = some A)
    (hfresh1 : ∀ u ∈ db, u.resetToken ≠ some (sha256Hex s1)) :
    (resetPassword
        (forgotPassword (forgotPassword db now1 s1 email).2 now2 s2 email).2
        t salt s1 p).1
      = .msg 400 "Invalid or expired password reset token." := by
  have hdb1 : (forgotPassword db now1 s1 email).2
      = updateBy db A.id (fun u =>
          { u with
            resetToken := some (sha256Hex s1),
            resetTokenExpiry := some (now1 + 3600000) }) := by
    rw [forgotPassword_hit he hfind]
  have hfind1 : findByEmail (forgotPassword db now1 s1 email).2 email
      = some { A with
          resetToken := some (sha256Hex s1),
          resetTokenExpiry := some (now1 + 3600000) } := by
    rw [hdb1, findByEmail_updateBy db A.id
      (fun u =>
        { u with
          resetToken := some (sha256Hex s1),
          resetTokenExpiry := some (now1 + 3600000) })
      (fun u => rfl) email, hfind]
    simp
  have hdb2 : (forgotPassword (forgotPassword db now1 s1 email).2 now2 s2 email).2
      = updateBy (forgotPassword db now1 s1 email).2
          ({ A with
            resetToken := some (sha256Hex s1),
            resetTokenExpiry := some (now1 + 3600000) } : Account).id
          (fun u =>
            { u with
              resetToken := some (sha256Hex s2),
              resetTokenExpiry := some (now2 + 3600000) }) := by
    rw [forgotPassword_hit he hfind1]
  have hnone : (forgotPassword (forgotPassword db now1 s1 email).2 now2 s2 email).2.find?
      (resetPred t (sha256Hex s1)) = none := by
    apply List.find?_eq_none.mpr
    intro x hx
    rw [hdb2] at hx
    obtain ⟨v, hv, hxv⟩ := mem_updateBy hx
    by_cases hvid : v.id = ({ A with
        resetToken := some (sha256Hex s1),
        resetTokenExpiry := some (now1 + 3600000) } : Account).id
    · rw [if_pos hvid] at hxv
      subst hxv
      intro hpred
      obtain ⟨hrt, -⟩ := (resetPred_iff t (sha256Hex s1) _).mp hpred
      simp only [Option.some.injEq] at hrt
      exact hneq (sha256Hex_inj hrt).symm
    · rw [if_neg hvid] at hxv
      subst hxv
      rw [hdb1] at hv
      obtain ⟨w, hw, hvw⟩ := mem_updateBy hv
      by_cases hwid : w.id = A.id
      · rw [if_pos hwid] at hvw
        exfalso
        apply hvid
        rw [hvw]
        exact hwid
      · rw [if_neg hwid] at hvw
        subst hvw
        intro hpred
        obtain ⟨hrt, -⟩ := (resetPred_iff t (sha256Hex s1) _).mp hpred
        exact hfresh1 _ hw hrt
  unfold resetPassword
  rw [if_neg (by push_neg; exact ⟨hs1, hp⟩)]
  simp only [hnone]

/-- Every column of a row except the password hash. -/
def nonPasswordView (a : Account) :
    Nat × String × Option String × Option String × Bool × Option String × Option Nat :=
  (a.id, a.email, a.name, a.username, a.onboarded, a.resetToken, a.resetTokenExpiry)

/-- An update that touches neither reset column commutes with the
reset-redemption lookup. -/
theorem find?_resetPred_updateBy (db : List Account) (i : Nat) (f : Account → Account)
    (hf1 : ∀ u, (f u).resetToken = u.resetToken)
    (hf2 : ∀ u, (f u).resetTokenExpiry = u.resetTokenExpiry)
    (now : Nat) (fp : String) :
    (updateBy db i f).find? (resetPred now fp)
      = (db.find? (resetPred now fp)).map (fun u => if u.id = i then f u else u) := by
  unfold updateBy
  apply find?_map_pred_eq
  intro u
  by_cases h : u.id = i
  · simp only [if_pos h]
    unfold resetPred
    rw [hf1, hf2]
  · simp [h]

/-- The store after a change-password call is either untouched or a
password-column-only update of one row. -/
theorem changePassword_shape (db : List Account) (salt userId : Nat)
    (oldPassword newPassword : String) :
    (changePassword db salt userId oldPassword newPassword).2 = db
    ∨ ∃ uid, (changePassword db salt userId oldPassword newPassword).2
        = updateBy db uid (fun u =>
            { u with password := some (bcryptHash newPassword salt) }) := by
  unfold changePassword
  repeat' split
  all_goals first
  | exact .inl rfl
  | exact .inr ⟨_, rfl⟩

/-- C8: change-password updates only the password column — the projection
of the store onto every non-password column is unchanged — and therefore
the outcome of any subsequent reset-password redemption (in particular, a
previously issued, still unexpired reset secret redeeming successfully) is
exactly what it would have been on the old store. -/
theorem change_password_preserves_reset (db : List Account) (salt userId : Nat)
    (oldPassword newPassword : String) (now2 salt2 : Nat) (s p : String) :
    (changePassword db salt userId oldPassword newPassword).2.map nonPasswordView
        = db.map nonPasswordView
    ∧ (resetPassword (changePassword db salt userId oldPassword newPassword).2
        now2 salt2 s p).1
      = (resetPassword db now2 salt2 s p).1 := by
  rcases changePassword_shape db salt userId oldPassword newPassword with hsh | ⟨uid, hsh⟩
  · rw [hsh]
    exact ⟨rfl, rfl⟩
  · constructor
    · rw [hsh]
      unfold updateBy
      rw [List.map_map]
      apply List.map_congr_left
      intro u hu
      by_cases h : u.id = uid
      · simp [Function.comp, h, nonPasswordView]
      · simp [Function.comp, h]
    · rw [hsh]
      unfold resetPassword
      by_cases h0 : s = "" ∨ p = ""
      · rw [if_pos h0, if_pos h0]
      · rw [if_neg h0, if_neg h0,
          find?_resetPred_updateBy db uid
            (fun u => { u with password := some (bcryptHash newPassword salt) })
            (fun u => rfl) (fun u => rfl) now2 (sha256Hex s)]
        cases hfo : db.find? (resetPred now2 (sha256Hex s)) <;> simp [hfo]

/-- The store after a register call is either untouched or extended with
the freshly created row. -/
theorem register_shape (db : List Account) (salt freshId : Nat) (email password : String) :
    (register db salt freshId email password).2 = db
    ∨ (register db salt freshId email password).2
        = db ++ [⟨freshId, email, some (bcryptHash password salt), none, none, false, none, none⟩] := by
  unfold register
  split
  · exact .inl rfl
  · split
    · exact .inl rfl
    · right
      dsimp only
      split <;> rfl

/-- The store after a forgot-password call is either untouched or a
fingerprint-and-expiry stamp of one row. -/
theorem forgotPassword_shape (db : List Account) (now : Nat) (secretTok email : String) :
    (forgotPassword db now secretTok email).2 = db
    ∨ ∃ uid, (forgotPassword db now secretTok email).2
        = updateBy db uid (fun u =>
            { u with
              resetToken := some (sha256Hex secretTok),
              resetTokenExpiry := some (now + 3600000) }) := by
  unfold forgotPassword
  repeat' split
  all_goals first
  | exact .inl rfl
  | exact .inr ⟨_, rfl⟩

/-- The store after a reset-password call is either untouched or one
combined password-write-and-token-clear of one row. -/
theorem resetPassword_shape (db : List Account) (now salt : Nat) (token newPassword : String) :
    (resetPassword db now salt token newPassword).2 = db
    ∨ ∃ uid, (resetPassword db now salt token newPassword).2
        = updateBy db uid (fun u =>
            { u with
              password := some (bcryptHash newPassword salt),
              resetToken := none, resetTokenExpiry := none }) := by
  unfold resetPassword
  repeat' split
  all_goals first
  | exact .inl rfl
  | exact .inr ⟨_, rfl⟩

/-- The store after an onboarding call is either untouched or a
name-username-onboarded update of the caller's row. -/
theorem onboarding_shape (db : List Account) (userId : Nat) (name username : String) :
    (onboarding db userId name username).2 = db
    ∨ (onboarding db userId name username).2
        = updateBy db userId (fun u =>
            { u with
              name := some name, username := some username, onboarded := true }) := by
  unfold onboarding
  repeat' split
  all_goals first
  | exact .inl rfl
  | exact .inr rfl

/-- The store after an OAuth account link is either untouched or extended
with the freshly created passwordless row. -/
theorem googleAuth_shape (db : List Account) (secret now freshId : Nat)
    (email displayName : String) :
    (googleAuth db secret now freshId email displayName).2 = db
    ∨ (googleAuth db secret now freshId email displayName).2
        = db ++ [⟨freshId, email, none, some displayName, none, false, none, none⟩] := by
  unfold googleAuth
  repeat' split
  all_goals first
  | exact .inr rfl
  | exact .inl rfl

/-- Row-wise preservation of the pair invariant under `updateBy`. -/
theorem resetPairInv_updateBy {db : List Account} {i : Nat} {f : Account → Account}
    (hdb : ∀ a ∈ db, resetPairInv a)
    (hf : ∀ u, resetPairInv u → resetPairInv (f u)) :
    ∀ a ∈ updateBy db i f, resetPairInv a := by
  intro a ha
  obtain ⟨u, hu, hau⟩ := mem_updateBy ha
  by_cases h : u.id = i
  · rw [if_pos h] at hau
    rw [hau]
    exact hf u (hdb u hu)
  · rw [if_neg h] at hau
    rw [hau]
    exact hdb u hu

/-- C7: every operation preserves the invariant that `resetTokenFingerprint`
and `resetTokenExpiry` are both null or both set: registration and OAuth
linking create rows with both null, forgot-password sets both together,
reset-password clears both together, and change-password and onboarding
touch neither. -/
theorem reset_pair_invariant_preserved (db : List Account)
    (salt freshId secret now userId : Nat)
    (email pw old new s np nm un dn : String)
    (hdb : ∀ a ∈ db, resetPairInv a) :
    (∀ a ∈ (register db salt freshId email pw).2, resetPairInv a)
    ∧ (∀ a ∈ (changePassword db salt userId old new).2, resetPairInv a)
    ∧ (∀ a ∈ (forgotPassword db now s email).2, resetPairInv a)
    ∧ (∀ a ∈ (resetPassword db now salt s np).2, resetPairInv a)
    ∧ (∀ a ∈ (onboarding db userId nm un).2, resetPairInv a)
    ∧ (∀ a ∈ (googleAuth db secret now freshId email dn).2, resetPairInv a) := by
  refine ⟨?_, ?_, ?_, ?_, ?_, ?_⟩
  · rcases register_shape db salt freshId email pw with h | h <;> rw [h]
    · exact hdb
    · intro a ha
      rcases List.mem_append.mp ha with ha' | ha'
      · exact hdb a ha'
      · rw [List.mem_singleton.mp ha']
        unfold resetPairInv
        simp
  · rcases changePassword_shape db salt userId old new with h | ⟨uid, h⟩ <;> rw [h]
    · exact hdb
    · refine resetPairInv_updateBy hdb ?_
      intro u hu
      unfold resetPairInv at hu ⊢
      exact hu
  · rcases forgotPassword_shape db now s email with h | ⟨uid, h⟩ <;> rw [h]
    · exact hdb
    · refine resetPairInv_updateBy hdb ?_
      intro u _
      unfold resetPairInv
      simp
  · rcases resetPassword_shape db now salt s np with h | ⟨uid, h⟩ <;> rw [h]
    · exact hdb
    · refine resetPairInv_updateBy hdb ?_
      intro u _
      unfold resetPairInv
      simp
  · rcases onboarding_shape db userId nm un with h | h <;> rw [h]
    · exact hdb
    · refine resetPairInv_updateBy hdb ?_
      intro u hu
      unfold resetPairInv at hu ⊢
      exact hu
  · rcases googleAuth_shape db secret now freshId email dn with h | h <;> rw [h]
    · exact hdb
    · intro a ha
      rcases List.mem_append.mp ha with ha' | ha'
      · exact hdb a ha'
      · rw [List.mem_singleton.mp ha']
        unfold resetPairInv
        simp

/-- C9: a successful reset-password issues exactly one store write — the
single combined `UPDATE` that writes the new password hash and nulls both
reset columns — so the reachable store states are only the initial one and
the final one, and neither contains a row carrying the new password hash
while its reset fingerprint is still set. -/
theorem reset_password_atomic (db : List Account) (now salt : Nat)
    (token newPassword : String)
    (hfresh : ∀ a ∈ db, a.password ≠ some (bcryptHash newPassword salt)) :
    (resetPassword db now salt token newPassword).2
        = (resetPasswordOps db now salt token newPassword).foldl applyOp db
    ∧ (resetPasswordOps db now salt token newPassword).length ≤ 1
    ∧ ∀ s, (s = db ∨ s = (resetPassword db now salt token newPassword).2) →
        ∀ a ∈ s, ¬(a.password = some (bcryptHash newPassword salt) ∧ a.resetToken ≠ none) := by
  have hsafe : ∀ s, (s = db ∨ s = (resetPassword db now salt token newPassword).2) →
      ∀ a ∈ s, ¬(a.password = some (bcryptHash newPassword salt) ∧ a.resetToken ≠ none) := by
    intro s hs a ha hcontra
    rcases hs with rfl | rfl
    · exact hfresh a ha hcontra.1
    · rcases resetPassword_shape db now salt token newPassword with h | ⟨uid, h⟩
      · rw [h] at ha
        exact hfresh a ha hcontra.1
      · rw [h] at ha
        obtain ⟨u, hu, hau⟩ := mem_updateBy ha
        by_cases hid : u.id = uid
        · rw [if_pos hid] at hau
          apply hcontra.2
          rw [hau]
        · rw [if_neg hid] at hau
          rw [hau] at hcontra
          exact hfresh u hu hcontra.1
  refine ⟨?_, ?_, hsafe⟩
  · unfold resetPassword resetPasswordOps
    by_cases h0 : token = "" ∨ newPassword = ""
    · rw [if_pos h0, if_pos h0]
      rfl
    · rw [if_neg h0, if_neg h0]
      cases hfo : db.find? (resetPred now (sha256Hex token)) <;> simp [hfo, applyOp]
  · unfold resetPasswordOps
    by_cases h0 : token = "" ∨ newPassword = ""
    · rw [if_pos h0]
      simp
    · rw [if_neg h0]
      cases hfo : db.find? (resetPred now (sha256Hex token)) <;> simp [hfo]

/-- C6 (backend handler modelled from the spec, §4.5 OAuth Account Link):
on a miss the link creates a row with no local password and
`onboarded = false` and answers with that account and a session token; on a
hit it reuses the found account unchanged; and in both cases every
pre-existing row — its password hash and onboarded flag included — survives
untouched in the new store. -/
theorem oauth_account_link (db : List Account) (secret now freshId : Nat)
    (email displayName : String) :
    (findByEmail db email = none →
      googleAuth db secret now freshId email displayName
        = (.userToken 200
            (Account.toClient ⟨freshId, email, none, some displayName, none, false, none, none⟩)
            (jwtSign secret freshId now),
           db ++ [⟨freshId, email, none, some displayName, none, false, none, none⟩])
      ∧ (⟨freshId, email, none, some displayName, none, false, none, none⟩ : Account).password = none
      ∧ (⟨freshId, email, none, some displayName, none, false, none, none⟩ : Account).onboarded = false)
    ∧ (∀ A, findByEmail db email = some A →
        googleAuth db secret now freshId email displayName
          = (.userToken 200 A.toClient (jwtSign secret A.id now), db))
    ∧ ∀ a ∈ db, a ∈ (googleAuth db secret now freshId email displayName).2 := by
  refine ⟨?_, ?_, ?_⟩
  · intro h
    refine ⟨?_, rfl, rfl⟩
    unfold googleAuth
    simp only [h]
  · intro A h
    unfold googleAuth
    simp only [h]
  · intro a ha
    rcases googleAuth_shape db secret now freshId email displayName with h | h <;> rw [h]
    · exact ha
    · exact List.mem_append_left _ ha

/-- C5 counterexample: with a reset outstanding, a successful login returns
the stored row with only the password column removed
(`server.js:126-129`), so the persisted reset fingerprint is transmitted to
the end user inside the login response, contradicting the claim that the
fingerprint never leaves the server. -/
theorem fingerprint_transmitted_counterexample :
    login [⟨1, "a@x.com", some (bcryptHash "pw1" 10), none, none, false,
        some (sha256Hex "sec1"), some 7200000⟩] 9 0 "a@x.com" "pw1"
      = .userToken 200
          ⟨1, "a@x.com", none, none, false, some (sha256Hex "sec1"), some 7200000⟩
          (jwtSign 9 1 0)
    ∧ (⟨1, "a@x.com", some (bcryptHash "pw1" 10), none, none, false,
        some (sha256Hex "sec1"), some 7200000⟩ : Account).resetToken
        = some (sha256Hex "sec1")
    ∧ (some (sha256Hex "sec1") : Option String) ≠ none := by
  refine ⟨by decide, rfl, by decide⟩

/-- C5 amended: the reset secret is never persisted — after a
forgot-password call no row's fingerprint column equals the secret, only
its one-way digest is written — and the forgot-password response is a fixed
generic message carrying neither secret nor fingerprint; however, the login
success response returns the stored account row with only the password
column removed, so the persisted fingerprint is transmitted to the
logging-in user whenever one is set. -/
theorem reset_secret_never_persisted (db : List Account)
    (now secret2 now2 : Nat) (s email e2 p2 : String) (A : Account) (hA : BcryptHash)
    (he : email ≠ "") (he2 : e2 ≠ "") (hp2 : p2 ≠ "")
    (hfresh : ∀ u ∈ db, u.resetToken ≠ some s)
    (hfind2 : findByEmail db e2 = some A)
    (hpw : A.password = some hA)
    (hcmp : bcryptCompare p2 hA = true) :
    (∀ a ∈ (forgotPassword db now s email).2, a.resetToken ≠ some s)
    ∧ (forgotPassword db now s email).1 = .msg 200 forgotMsg
    ∧ login db secret2 now2 e2 p2
        = .userToken 200 A.toClient (jwtSign secret2 A.id now2)
    ∧ A.toClient.resetToken = A.resetToken := by
  refine ⟨?_, ?_, ?_, rfl⟩
  · intro a ha
    rcases forgotPassword_shape db now s email with h | ⟨uid, h⟩
    · rw [h] at ha
      exact hfresh a ha
    · rw [h] at ha
      obtain ⟨u, hu, hau⟩ := mem_updateBy ha
      by_cases hid : u.id = uid
      · rw [if_pos hid] at hau
        rw [hau]
        simp only [Option.some.injEq, ne_eq]
        exact fun heq => sha256Hex_ne s heq
      · rw [if_neg hid] at hau
        rw [hau]
        exact hfresh u hu
  · unfold forgotPassword
    rw [if_neg he]
    cases hfo : findByEmail db email <;> simp [hfo]
  · unfold login
    rw [if_neg (by push_neg; exact ⟨he2, hp2⟩)]
    simp only [hfind2, hpw, hcmp, if_true]

/-- Witness for the amended C5 at a concrete store. -/
theorem reset_secret_never_persisted_witness :
    (("a@x.com" : String) ≠ ""
      ∧ ("a@x.com" : String) ≠ "" ∧ ("pw1" : String) ≠ ""
      ∧ (∀ u ∈ [(⟨1, "a@x.com", some (bcryptHash "pw1" 10), none, none, false, none,
          none⟩ : Account)], u.resetToken ≠ some "sec1")
      ∧ findByEmail [⟨1, "a@x.com", some (bcryptHash "pw1" 10), none, none, false, none, none⟩]
          "a@x.com"
        = some ⟨1, "a@x.com", some (bcryptHash "pw1" 10), none, none, false, none, none⟩
      ∧ (⟨1, "a@x.com", some (bcryptHash "pw1" 10), none, none, false, none,
          none⟩ : Account).password = some (bcryptHash "pw1" 10)
      ∧ bcryptCompare "pw1" (bcryptHash "pw1" 10) = true)
    ∧ ((∀ a ∈ (forgotPassword
          [⟨1, "a@x.com", some (bcryptHash "pw1" 10), none, none, false, none, none⟩]
          0 "sec1" "a@x.com").2, a.resetToken ≠ some "sec1")
      ∧ (forgotPassword
          [⟨1, "a@x.com", some (bcryptHash "pw1" 10), none, none, false, none, none⟩]
          0 "sec1" "a@x.com").1 = .msg 200 forgotMsg
      ∧ login [⟨1, "a@x.com", some (bcryptHash "pw1" 10), none, none, false, none, none⟩]
          9 0 "a@x.com" "pw1"
        = .userToken 200
            (Account.toClient ⟨1, "a@x.com", some (bcryptHash "pw1" 10), none, none, false,
              none, none⟩)
            (jwtSign 9 1 0)
      ∧ (Account.toClient ⟨1, "a@x.com", some (bcryptHash "pw1" 10), none, none, false,
          none, none⟩).resetToken
        = (⟨1, "a@x.com", some (bcryptHash "pw1" 10), none, none, false, none,
          none⟩ : Account).resetToken) :=
  ⟨⟨by decide, by decide, by decide, by decide, by decide, by decide, by decide⟩,
   reset_secret_never_persisted
     [⟨1, "a@x.com", some (bcryptHash "pw1" 10), none, none, false, none, none⟩]
     0 9 0 "sec1" "a@x.com" "a@x.com" "pw1"
     ⟨1, "a@x.com", some (bcryptHash "pw1" 10), none, none, false, none, none⟩
     (bcryptHash "pw1" 10)
     (by decide) (by decide) (by decide) (by decide) (by decide) (by decide) (by decide)⟩

/-- A one-row store used to instantiate the lifecycle theorems. -/
def sampleAccount : Account :=
  ⟨1, "a@x.com", some (bcryptHash "pw1" 10), none, none, false, none, none⟩

/-- Witness for C1 at a concrete store. -/
theorem reset_token_redemption_witness :
    (("a@x.com" : String) ≠ "" ∧ ("s1" : String) ≠ "" ∧ ("n1" : String) ≠ ""
      ∧ ("n2" : String) ≠ "" ∧ ("n3" : String) ≠ ""
      ∧ findByEmail [sampleAccount] "a@x.com" = some sampleAccount
      ∧ (∀ u ∈ [sampleAccount], u.resetToken ≠ some (sha256Hex "s1"))
      ∧ 5 < 0 + 3600000 ∧ 0 + 3600000 ≤ 3600000)
    ∧ ((resetPassword (forgotPassword [sampleAccount] 0 "s1" "a@x.com").2 5 11 "s1" "n1").1
        = .msg 200 "Password has been reset successfully."
      ∧ (resetPassword
          (resetPassword (forgotPassword [sampleAccount] 0 "s1" "a@x.com").2 5 11 "s1" "n1").2
          6 12 "s1" "n2").1 = .msg 400 "Invalid or expired password reset token."
      ∧ (resetPassword (forgotPassword [sampleAccount] 0 "s1" "a@x.com").2 3600000 13 "s1" "n3").1
        = .msg 400 "Invalid or expired password reset token.") :=
  ⟨⟨by decide, by decide, by decide, by decide, by decide, by decide, by decide,
    by decide, by decide⟩,
   reset_token_redemption [sampleAccount] 0 5 6 3600000 11 12 13
     "a@x.com" "s1" "n1" "n2" "n3" sampleAccount
     (by decide) (by decide) (by decide) (by decide) (by decide)
     (by decide) (by decide) (by decide) (by decide)⟩

/-- Witness for C7 at a concrete store. -/
theorem reset_pair_invariant_preserved_witness :
    (∀ a ∈ [sampleAccount], resetPairInv a)
    ∧ ((∀ a ∈ (register [sampleAccount] 10 2 "b@x.com" "q").2, resetPairInv a)
      ∧ (∀ a ∈ (changePassword [sampleAccount] 10 1 "pw1" "z").2, resetPairInv a)
      ∧ (∀ a ∈ (forgotPassword [sampleAccount] 0 "s1" "b@x.com").2, resetPairInv a)
      ∧ (∀ a ∈ (resetPassword [sampleAccount] 0 10 "s1" "n").2, resetPairInv a)
      ∧ (∀ a ∈ (onboarding [sampleAccount] 1 "Nm" "u1").2, resetPairInv a)
      ∧ (∀ a ∈ (googleAuth [sampleAccount] 9 0 2 "b@x.com" "Dn").2, resetPairInv a)) :=
  ⟨by decide,
   reset_pair_invariant_preserved [sampleAccount] 10 2 9 0 1
     "b@x.com" "q" "pw1" "z" "s1" "n" "Nm" "u1" "Dn" (by decide)⟩

/-- Witness for C9 at a concrete store. -/
theorem reset_password_atomic_witness :
    (∀ a ∈ [sampleAccount], a.password ≠ some (bcryptHash "n1" 10))
    ∧ ((resetPassword [sampleAccount] 0 10 "s1" "n1").2
        = (resetPasswordOps [sampleAccount] 0 10 "s1" "n1").foldl applyOp [sampleAccount]
      ∧ (resetPasswordOps [sampleAccount] 0 10 "s1" "n1").length ≤ 1
      ∧ ∀ s, (s = [sampleAccount] ∨ s = (resetPassword [sampleAccount] 0 10 "s1" "n1").2) →
          ∀ a ∈ s, ¬(a.password = some (bcryptHash "n1" 10) ∧ a.resetToken ≠ none)) :=
  ⟨by decide, reset_password_atomic [sampleAccount] 0 10 "s1" "n1" (by decide)⟩

/-- Witness for C10 at a concrete store. -/
theorem second_forgot_invalidates_first_witness :
    (("a@x.com" : String) ≠ "" ∧ ("s1" : String) ≠ "" ∧ ("n" : String) ≠ ""
      ∧ ("s1" : String) ≠ "s2"
      ∧ findByEmail [sampleAccount] "a@x.com" = some sampleAccount
      ∧ (∀ u ∈ [sampleAccount], u.resetToken ≠ some (sha256Hex "s1")))
    ∧ (resetPassword
        (forgotPassword (forgotPassword [sampleAccount] 0 "s1" "a@x.com").2 1 "s2" "a@x.com").2
        5 10 "s1" "n").1
      = .msg 400 "Invalid or expired password reset token." :=
  ⟨⟨by decide, by decide, by decide, by decide, by decide, by decide⟩,
   second_forgot_invalidates_first [sampleAccount] 0 1 5 10 "a@x.com" "s1" "s2" "n"
     sampleAccount
     (by decide) (by decide) (by decide) (by decide) (by decide) (by decide)⟩

end MidtermAuth
